import Mathlib

/-!
Verification development for the riderOP WhatsApp ride-share extraction
pipeline.  The definitions below are a shallow embedding of the Python
sources `classify_and_place.py`, `get_date_time.py` and
`offering_seeking.py`:

* text normalisation (`re.sub(r"[^a-zA-Z0-9\s]", "", text).lower()`) and
  whitespace tokenisation (`str.split`);
* word-boundary search (`re.search(rf"\b{re.escape(p)}\b", text)`) for
  gazetteer synonyms;
* the gazetteer loader (`load_places`), modelling a Python dict as an
  insertion-ordered association list;
* the directional pair extractor (`extract_first_pair`), the category
  classifier (`classify_messages`, per message), the date/time extractor
  (`extract_datetime_info`, with a small backtracking regex interpreter
  for its pattern tables) and the intent classifier
  (`classify_ride_type`).

Python truthiness (`if src_match`, `if not origin`) is modelled by
`truthy` on `Option String` (`none` and the empty string are falsy).
A Python `set` of strings has no specified iteration order; following
the specification (which mandates an insertion-order tie-break for the
found-places fallback), `count_unique_places` models the set as a
deduplicated list in first-found (insertion) order.
-/

/-- ASCII alphanumeric characters, the class `[a-zA-Z0-9]` of the
normalisation regex. -/
def pyIsAlnum (c : Char) : Bool :=
  ('a' ≤ c && c ≤ 'z') || ('A' ≤ c && c ≤ 'Z') || ('0' ≤ c && c ≤ '9')

/-- The Python regex class `\s` (ASCII part): space, tab, newline,
carriage return, vertical tab, form feed. -/
def pyIsSpace (c : Char) : Bool :=
  c = ' ' || c = '\t' || c = '\n' || c = '\r' || c = '\x0b' || c = '\x0c'

/-- ASCII decimal digit, the class `\d`. -/
def pyIsDigit (c : Char) : Bool := '0' ≤ c && c ≤ '9'

/-- ASCII lowercasing of one character (`str.lower` on the ASCII range,
which is all that the pipeline's inputs use). -/
def lowerChar (c : Char) : Char :=
  if 'A' ≤ c && c ≤ 'Z' then Char.ofNat (c.toNat + 32) else c

/-- Characters kept by `re.sub(r"[^a-zA-Z0-9\s]", "", _)`. -/
def keepChar (c : Char) : Bool := pyIsAlnum c || pyIsSpace c

/-- `str.lower` on a whole string. -/
def lowerStr (s : String) : String := String.mk (s.data.map lowerChar)

/-- `normalize_text`: `re.sub(r"[^a-zA-Z0-9\s]", "", text).lower()`.
Lowercasing and punctuation removal commute on this character set, so
this single definition also models `extract_first_pair`'s
`re.sub(r"[^a-zA-Z0-9\s]", "", text.lower())`. -/
def normalize_text (s : String) : String :=
  String.mk ((s.data.map lowerChar).filter keepChar)

/-- Auxiliary for Python `str.split()`: split on whitespace runs,
dropping empty fragments. `acc` holds the current word reversed. -/
def splitWsAux : List Char → List Char → List (List Char)
  | [], acc => if acc = [] then [] else [acc.reverse]
  | c :: cs, acc =>
    if pyIsSpace c then
      if acc = [] then splitWsAux cs []
      else acc.reverse :: splitWsAux cs []
    else splitWsAux cs (c :: acc)

/-- Python `str.split()` (no argument): whitespace tokenisation. -/
def pySplitStr (s : String) : List String :=
  (splitWsAux s.data []).map String.mk

/-- The token list that `extract_first_pair` scans: normalise, then
split on whitespace. -/
def msgWords (text : String) : List String := pySplitStr (normalize_text text)

/-- Python `str.strip()` (ASCII whitespace). -/
def pyStripS (s : String) : String :=
  String.mk (((s.data.dropWhile pyIsSpace).reverse.dropWhile pyIsSpace).reverse)

/-- Word characters for the regex `\b` assertion (`[a-zA-Z0-9_]`). -/
def isWordChar (c : Char) : Bool := pyIsAlnum c || c = '_'

/-- Is the character at index `i` of `t` a word character
(out-of-range counts as not)? -/
def wordAtPos (t : List Char) (i : Nat) : Bool :=
  match t.get? i with
  | some c => isWordChar c
  | none => false

/-- Does `\b` hold at position `i` of `t` (between indices `i-1` and
`i`)?  True iff exactly one side is a word character; the edges of the
string count as non-word. -/
def wbAt (t : List Char) (i : Nat) : Bool :=
  (if i = 0 then false else wordAtPos t (i - 1)) != wordAtPos t i

/-- Does the literal `p` occur in `t` starting at index `i`? -/
def litAt (p t : List Char) (i : Nat) : Bool :=
  decide ((t.drop i).take p.length = p)

/-- `re.search(rf"\b{re.escape(p)}\b", t)` for a literal `p` (the only
regexes built from gazetteer entries): `p` occurs somewhere in `t` with
word boundaries on both sides. -/
def searchWBL (p t : List Char) : Bool :=
  (List.range (t.length + 1)).any fun i =>
    wbAt t i && litAt p t i && wbAt t (i + p.length)

/-- String-level wrapper for `searchWBL`. -/
def searchWB (p s : String) : Bool := searchWBL p.data s.data

/-- Python `sub in s` (plain substring containment). -/
def isSubL (p t : List Char) : Bool :=
  (List.range (t.length + 1)).any fun i => litAt p t i

/-- String-level wrapper for `isSubL`. -/
def isSubstrS (p s : String) : Bool := isSubL p.data s.data

/-- First-some combinator: Python's first-match-wins loops
(`next(...)`, `for ...: if ...: return`). -/
def pyOr {α : Type _} (a b : Option α) : Option α :=
  match a with
  | some x => some x
  | none => b

/-- `firstSome l f`: the first `some` produced by `f` along `l`
(Python generator `next((f x for x in l if ...), None)` and
first-return-wins scans). -/
def firstSome {α β : Type _} : List α → (α → Option β) → Option β
  | [], _ => none
  | a :: t, f => pyOr (f a) (firstSome t f)

/-- Split a character list on a separator character (Python
`str.split(sep)`: empty fragments are kept, and splitting the empty
string yields one empty fragment). -/
def splitOnC (sep : Char) : List Char → List Char → List (List Char)
  | [], acc => [acc.reverse]
  | c :: cs, acc =>
    if c = sep then acc.reverse :: splitOnC sep cs []
    else splitOnC sep cs (c :: acc)

/-- Python `line.split("=")`. -/
def splitEq (s : String) : List String := (splitOnC '=' s.data []).map String.mk

/-- Python dict assignment `m[k] = v`, on an insertion-ordered
association list: overwrite in place if the key exists, else append. -/
def dictInsert (m : List (String × String)) (k v : String) :
    List (String × String) :=
  if m.any (fun kv => kv.1 = k) then
    m.map (fun kv => if kv.1 = k then (k, v) else kv)
  else m ++ [(k, v)]

/-- `load_places`: each line is split on `=`, every part is stripped
and lowercased, the first part is the canonical name, and every part
(canonical included) is registered as a synonym of it.  The file is
modelled as its list of lines. -/
def load_places (lines : List String) : List (String × String) :=
  lines.foldl
    (fun m line =>
      let parts := (splitEq (pyStripS line)).map (fun p => lowerStr (pyStripS p))
      let canonical := parts.headD ""
      parts.foldl (fun m2 syn => dictInsert m2 syn canonical) m)
    []

/-- The gazetteer of the specification's scenarios:
`state college = sc = happy valley` and `pittsburgh = pgh`. -/
def gazetteerC : List (String × String) :=
  load_places ["state college = sc = happy valley", "pittsburgh = pgh"]

/-- Append an element to a list unless already present: models
`set.add` on the insertion-ordered model of a Python string set. -/
def addUnique (l : List String) (x : String) : List String :=
  if x ∈ l then l else l ++ [x]

/-- `count_unique_places`: the set of canonical names whose synonym
occurs (whole-word) in the text, modelled as a deduplicated list in
first-found (gazetteer insertion) order. -/
def count_unique_places (text : String) (pm : List (String × String)) :
    List String :=
  pm.foldl
    (fun acc kv => if searchWB kv.1 text then addUnique acc kv.2 else acc)
    []

/-- Python truthiness of an optional string: `None` and `""` are
falsy. -/
def truthy : Option String → Bool
  | none => false
  | some s => s != ""

/-- Join a word window with single spaces (`" ".join(words[a:a+len])`). -/
def sliceJoin (ws : List String) (a len : Nat) : String :=
  String.mk (List.intercalate [' '] (((ws.drop a).take len).map String.data))

/-- Forward candidate windows
`[" ".join(words[start:start+k]) for k in range(1, 4) if start+k <= len(words)]`. -/
def fwdCands (ws : List String) (start : Nat) : List String :=
  (([1, 2, 3].filter (fun k => start + k ≤ ws.length)).map
    (fun k => sliceJoin ws start k))

/-- Branch-(a) origin windows
`[" ".join(words[i+1:i+2+k]) for k in range(1, 4) if i+2+k <= len(words)]`
(note the windows span `k+1` tokens and include the "to" token). -/
def b1src (ws : List String) (i : Nat) : List String :=
  (([1, 2, 3].filter (fun k => i + 2 + k ≤ ws.length)).map
    (fun k => sliceJoin ws (i + 1) (k + 1)))

/-- Connector-branch backward origin windows
`[" ".join(words[i-k:i+1]) for k in range(1, 4) if i-k >= 0]`
(windows of `k+1` tokens ending at token `i`). -/
def b3src (ws : List String) (i : Nat) : List String :=
  (([1, 2, 3].filter (fun k => k ≤ i)).map
    (fun k => sliceJoin ws (i - k) (k + 1)))

/-- `words[j]`, with `""` for an out-of-range index (the Python code
only indexes in range inside the scan loop). -/
def wsGet (ws : List String) (j : Nat) : String := ws.getD j ""

/-- `next((place_map[p] for p in place_map if re.search(rf"\b{p}\b", cand)), None)`:
the first gazetteer synonym (in dict insertion order) found whole-word
inside the candidate string, resolved to its canonical name. -/
def firstMatch (pm : List (String × String)) (cand : String) : Option String :=
  firstSome pm (fun kv => if searchWB kv.1 cand then some kv.2 else none)

/-- One (src, dst) candidate test:
`if src_match and dst_match and src_match != dst_match: return src_match, dst_match`. -/
def pairCheck (pm : List (String × String)) (src dst : String) :
    Option (String × String) :=
  match firstMatch pm src, firstMatch pm dst with
  | some s, some d => if s ≠ "" ∧ d ≠ "" ∧ s ≠ d then some (s, d) else none
  | _, _ => none

/-- The nested candidate loops
`for src in src_candidates: for dst in dst_candidates: ...`. -/
def tryPairs (pm : List (String × String)) (ss ds : List String) :
    Option (String × String) :=
  firstSome ss (fun src => firstSome ds (fun dst => pairCheck pm src dst))

/-- One destination-only candidate test of the bare-"to" block:
`if dst_match: return "state college*", dst_match`. -/
def bareCheck (pm : List (String × String)) (dst : String) :
    Option (String × String) :=
  match firstMatch pm dst with
  | some d => if d ≠ "" then some ("state college*", d) else none
  | none => none

/-- The trailing `if words[i] == "to"` block of the scan body
("Handle messages like: driving to [place]").  It executes only after
one of the three cue branches matched at the same index `i`, because a
non-matching index does `continue` before reaching it. -/
def bareToAt (pm : List (String × String)) (ws : List String) (i : Nat) :
    Option (String × String) :=
  if wsGet ws i = "to" then
    firstSome (fwdCands ws (i + 1)) (bareCheck pm)
  else none

/-- Bare-"from" branch destination windows: the probe index `to_idx`
is `i + 1 + len(src_candidates[0].split())` (the shortest origin
window is the single token `words[i+1]`); destination windows follow
it when the token there is "to", else there are none. -/
def b2dst (ws : List String) (i : Nat) : List String :=
  if i + 1 + (pySplitStr ((fwdCands ws (i + 1)).headD "")).length < ws.length ∧
      wsGet ws (i + 1 + (pySplitStr ((fwdCands ws (i + 1)).headD "")).length) = "to"
  then fwdCands ws (i + 1 + (pySplitStr ((fwdCands ws (i + 1)).headD "")).length + 1)
  else []

/-- The body of `extract_first_pair`'s scan for one index `i`:
the three cue branches (from…to, bare from, connector), each followed
by the candidate loops and the trailing bare-"to" block; a
non-matching index yields `none` (`continue`). -/
def stepAt (pm : List (String × String)) (ws : List String) (i : Nat) :
    Option (String × String) :=
  if wsGet ws i = "from" ∧ i + 2 < ws.length ∧ wsGet ws (i + 2) = "to" then
    pyOr (tryPairs pm (b1src ws i) (fwdCands ws (i + 3))) (bareToAt pm ws i)
  else if wsGet ws i = "from" then
    pyOr (tryPairs pm (fwdCands ws (i + 1)) (b2dst ws i)) (bareToAt pm ws i)
  else if wsGet ws (i + 1) = "to" ∨ wsGet ws (i + 1) = "-" ∨ wsGet ws (i + 1) = "→" then
    pyOr (tryPairs pm (b3src ws i) (fwdCands ws (i + 2))) (bareToAt pm ws i)
  else none

/-- Convert the scan result to the Python return shape: a found pair
becomes two `some`s, no pair becomes `(None, None)`. -/
def pairToOpt : Option (String × String) → Option String × Option String
  | some p => (some p.1, some p.2)
  | none => (none, none)

/-- `extract_first_pair(text, place_map)`: normalise and tokenise the
text, scan indices `0 .. len(words)-3` (`for i in range(len(words) - 2)`),
and return the first pair found, else `(None, None)`. -/
def extract_first_pair (text : String) (pm : List (String × String)) :
    Option String × Option String :=
  pairToOpt (firstSome (List.range ((msgWords text).length - 2))
    (stepAt pm (msgWords text)))

/-- The per-message result columns of `classify_messages`. -/
structure ClassifyResult where
  category : String
  origin : Option String
  destination : Option String
deriving DecidableEq, Repr

/-- The category decision of `classify_messages` for one message:
pair-extraction success, then the to/from + two-places heuristic, then
the to-only + synthetic-home-base heuristic, else "general". -/
def categoryOf (pm : List (String × String)) (msg : String) : String :=
  let text := normalize_text msg
  let found := count_unique_places text pm
  let hasTo := searchWB "to" text
  let hasFrom := searchWB "from" text
  let e := extract_first_pair msg pm
  if truthy e.1 = true ∧ truthy e.2 = true then "ride"
  else if hasTo = true ∧ hasFrom = true ∧ 2 ≤ found.length then "ride"
  else if hasTo = true ∧ hasFrom = false ∧ 1 ≤ found.length then
    (if 2 ≤ (addUnique found "state college*").length then "ride" else "general")
  else "general"

/-- The found-places set as it stands after the category decision:
the third heuristic branch mutates it by `found_places.add("state college*")`
before the fallback assignment reads it. -/
def foundFinal (pm : List (String × String)) (msg : String) : List String :=
  let text := normalize_text msg
  let found := count_unique_places text pm
  let hasTo := searchWB "to" text
  let hasFrom := searchWB "from" text
  let e := extract_first_pair msg pm
  if ¬(truthy e.1 = true ∧ truthy e.2 = true) ∧
      ¬(hasTo = true ∧ hasFrom = true ∧ 2 ≤ found.length) ∧
      (hasTo = true ∧ hasFrom = false ∧ 1 ≤ found.length) then
    addUnique found "state college*"
  else found

/-- The fallback assignment
`if not origin and category == "ride": pair = list(found_places);
if len(pair) >= 2: origin, destination = pair[0], pair[1]`. -/
def assignPair (e : Option String × Option String) (cat : String)
    (f2 : List String) : Option String × Option String :=
  if truthy e.1 = false ∧ cat = "ride" then
    (if 2 ≤ f2.length then (f2.get? 0, f2.get? 1) else e)
  else e

/-- One loop iteration of `classify_messages`: category plus
origin/destination for a single message. -/
def classifyMessage (pm : List (String × String)) (msg : String) :
    ClassifyResult :=
  { category := categoryOf pm msg,
    origin :=
      (assignPair (extract_first_pair msg pm) (categoryOf pm msg)
        (foundFinal pm msg)).1,
    destination :=
      (assignPair (extract_first_pair msg pm) (categoryOf pm msg)
        (foundFinal pm msg)).2 }

/-- Regex abstract syntax: exactly the constructs used by the date and
time pattern tables of `get_date_time.py`. -/
inductive RE where
  | eps : RE
  | one (p : Char → Bool) : RE
  | str (s : List Char) : RE
  | seq (a b : RE) : RE
  | alt (a b : RE) : RE
  | opt (a : RE) : RE
  | starC (p : Char → Bool) : RE
  | r12 (p : Char → Bool) : RE
  | r2 (p : Char → Bool) : RE
  | grp (n : Nat) (a : RE) : RE
  | wb : RE

/-- Captured groups of a regex match: group number to captured text. -/
abbrev Caps := List (Nat × String)

/-- Record group `n` as having captured `v` (a later capture of the
same group overwrites the earlier one). -/
def setCap (c : Caps) (n : Nat) (v : String) : Caps :=
  if (c : List (Nat × String)).any (fun kv => kv.1 = n) then
    (c : List (Nat × String)).map (fun kv => if kv.1 = n then (n, v) else kv)
  else c ++ [(n, v)]

/-- Length of the maximal run of characters satisfying `p`. -/
def countWhile (p : Char → Bool) : List Char → Nat
  | [] => 0
  | c :: cs => if p c then countWhile p cs + 1 else 0

/-- Backtracking regex interpreter in continuation-passing style over
the fixed text `t`.  `mrun t r i c k`: try to match `r` at position
`i` with captures `c`, calling `k` at each candidate end position in
the match-priority order of Python `re` (alternation prefers the left
branch, quantifiers are greedy and backtrack from longest). -/
def mrun (t : List Char) :
    RE → Nat → Caps → (Nat → Caps → Option Caps) → Option Caps
  | RE.eps, i, c, k => k i c
  | RE.one p, i, c, k =>
    match t.get? i with
    | some ch => if p ch then k (i + 1) c else none
    | none => none
  | RE.str s, i, c, k => if litAt s t i then k (i + s.length) c else none
  | RE.seq a b, i, c, k => mrun t a i c (fun j c2 => mrun t b j c2 k)
  | RE.alt a b, i, c, k => pyOr (mrun t a i c k) (mrun t b i c k)
  | RE.opt a, i, c, k => pyOr (mrun t a i c k) (k i c)
  | RE.starC p, i, c, k =>
    let m := countWhile p (t.drop i)
    firstSome (List.range (m + 1)) (fun dlt => k (i + (m - dlt)) c)
  | RE.r12 p, i, c, k =>
    match t.get? i with
    | some c0 =>
      if p c0 then
        pyOr
          (match t.get? (i + 1) with
            | some c1 => if p c1 then k (i + 2) c else none
            | none => none)
          (k (i + 1) c)
      else none
    | none => none
  | RE.r2 p, i, c, k =>
    match t.get? i, t.get? (i + 1) with
    | some c0, some c1 => if p c0 && p c1 then k (i + 2) c else none
    | _, _ => none
  | RE.grp n a, i, c, k =>
    mrun t a i c
      (fun j c2 => k j (setCap c2 n (String.mk ((t.drop i).take (j - i)))))
  | RE.wb, i, c, k => if wbAt t i then k i c else none

/-- `re.search(r, t)`: the captures of the leftmost match (earliest
start position; at a given start, Python match priority). -/
def research (r : RE) (t : List Char) : Option Caps :=
  firstSome (List.range (t.length + 1))
    (fun i => mrun t r i [] (fun _ c => some c))

/-- A pattern together with its number of capturing groups. -/
structure Pat where
  re : RE
  ng : Nat

/-- `match.group(n)` lookup. -/
def capGet (c : Caps) (n : Nat) : Option String :=
  firstSome (c : List (Nat × String))
    (fun kv => if kv.1 = n then some kv.2 else none)

/-- `match.groups()`: all groups by number, `None` for an unmatched
group. -/
def groupsOf (p : Pat) (c : Caps) : List (Option String) :=
  (List.range p.ng).map (fun j => capGet c (j + 1))

/-- `list(filter(None, match.groups()))`: drop unmatched and empty
groups, keeping order. -/
def truthyParts (gs : List (Option String)) : List String :=
  (gs.filterMap id).filter (fun s => s != "")

/-- Fold a list of regexes into a sequence. -/
def rseq (l : List RE) : RE := l.foldr RE.seq RE.eps

/-- Fold a list of regexes into a left-priority alternation. -/
def ralt : List RE → RE
  | [] => RE.one (fun _ => false)
  | [r] => r
  | r :: rest => RE.alt r (ralt rest)

/-- Literal regex from a string. -/
def lit (s : String) : RE := RE.str s.data

/-- Alternation of string literals, left priority. -/
def altLits (l : List String) : RE := ralt (l.map lit)

/-- `\s` as a single-character regex. -/
def sCls : RE := RE.one pyIsSpace

/-- `\s*`. -/
def sStar : RE := RE.starC pyIsSpace

/-- `\s+`. -/
def sPlus : RE := RE.seq sCls sStar

/-- `[:.]`. -/
def cDot : RE := RE.one (fun c => c = ':' || c = '.')

/-- Full month names of the date patterns. -/
def monthsFull : List String :=
  ["january", "february", "march", "april", "may", "june", "july",
   "august", "september", "october", "november", "december"]

/-- Abbreviated month names of the date patterns. -/
def monthsAbbr : List String :=
  ["jan", "feb", "mar", "apr", "may", "jun", "jul", "aug", "sep", "oct",
   "nov", "dec"]

/-- `(?:st|nd|rd|th)`. -/
def ordSuf : RE := altLits ["st", "nd", "rd", "th"]

/-- `(?:on\s)?`. -/
def onOpt : RE := RE.opt (RE.seq (lit "on") sCls)

/-- `(\d{1,2})` as capturing group `n`. -/
def d12g (n : Nat) : RE := RE.grp n (RE.r12 pyIsDigit)

/-- `(\d{2})` as capturing group `n`. -/
def d2g (n : Nat) : RE := RE.grp n (RE.r2 pyIsDigit)

/-- `(am|pm)` as capturing group `n`. -/
def ampmG (n : Nat) : RE := RE.grp n (altLits ["am", "pm"])

/-- The ordered `date_patterns` table of `extract_datetime_info`. -/
def date_patterns : List Pat :=
  [⟨rseq [RE.wb, onOpt, d12g 1, ordSuf, RE.opt (rseq [sPlus, lit "of"]),
      sStar, RE.opt (RE.grp 2 (altLits monthsFull)), RE.wb], 2⟩,
   ⟨rseq [RE.wb, onOpt, RE.grp 1 (altLits monthsFull), sStar, d12g 2,
      RE.opt ordSuf, RE.wb], 2⟩,
   ⟨rseq [RE.wb, onOpt, d12g 1, RE.opt ordSuf, sStar,
      RE.opt (RE.grp 2 (altLits monthsAbbr)), RE.wb], 2⟩,
   ⟨rseq [RE.wb, onOpt, RE.grp 1 (altLits monthsAbbr), sStar, d12g 2,
      RE.opt ordSuf, RE.wb], 2⟩,
   ⟨rseq [RE.wb, d12g 1, RE.opt ordSuf, sStar, RE.alt (lit "-") (lit "to"),
      sStar, d12g 2, RE.opt ordSuf, sStar,
      RE.opt (RE.grp 3 (altLits (monthsFull ++ monthsAbbr))), RE.wb], 3⟩,
   ⟨rseq [RE.wb, d12g 1, RE.opt ordSuf, sStar,
      RE.opt (RE.grp 2 (altLits (monthsFull ++ monthsAbbr))), RE.wb], 2⟩]

/-- The ordered `time_patterns` table of `extract_datetime_info`. -/
def time_patterns : List Pat :=
  [⟨rseq [RE.wb, d12g 1, lit ":", d2g 2, sStar, ampmG 3, RE.wb], 3⟩,
   ⟨rseq [RE.wb, d12g 1, sStar, cDot, sStar, d2g 2, sStar, ampmG 3, RE.wb], 3⟩,
   ⟨rseq [RE.wb, d12g 1, sStar, ampmG 2, RE.wb], 2⟩,
   ⟨rseq [RE.wb, d12g 1, lit ":", d2g 2, RE.wb], 2⟩,
   ⟨rseq [RE.wb,
      RE.grp 1 (altLits ["morning", "afternoon", "evening", "tonight", "night"]),
      RE.wb], 1⟩]

/-- `(?:at|before|around|by)?`. -/
def qualOpt : RE := RE.opt (altLits ["at", "before", "around", "by"])

/-- The ordered `fallback_patterns` table of
`fallback_time_extraction`. -/
def fallback_patterns : List Pat :=
  [⟨rseq [RE.wb, qualOpt, sStar, d12g 1, lit ":", d2g 2, sStar, ampmG 3,
      RE.wb], 3⟩,
   ⟨rseq [RE.wb, qualOpt, sStar, d12g 1, sStar, cDot, sStar, d2g 2, sStar,
      ampmG 3, RE.wb], 3⟩,
   ⟨rseq [RE.wb, qualOpt, sStar, d12g 1, lit ":", d2g 2, ampmG 3, RE.wb], 3⟩,
   ⟨rseq [RE.wb, qualOpt, sStar, d12g 1, ampmG 2, RE.wb], 2⟩,
   ⟨rseq [RE.wb, qualOpt, sStar, d12g 1, cDot, d2g 2, RE.opt sStar, ampmG 3,
      RE.wb], 3⟩]

/-- `":".join(l)`. -/
def joinColon : List String → String
  | [] => ""
  | [a] => a
  | a :: rest => a ++ ":" ++ joinColon rest

/-- `" ".join(l)`. -/
def joinSpStr : List String → String
  | [] => ""
  | [a] => a
  | a :: rest => a ++ " " ++ joinSpStr rest

/-- `fallback_time_extraction(message)`: first fallback pattern that
matches; join its first two groups with ":" and append the third with
a space when the pattern has three groups. -/
def fallback_time_extraction (message : String) : Option String :=
  let msg := lowerStr message
  firstSome fallback_patterns (fun p =>
    (research p.re msg.data).map (fun c =>
      let gs := groupsOf p c
      joinColon ((gs.take 2).map (fun g => g.getD "")) ++
        (if p.ng = 3 then " " ++ ((gs.getD 2 none).getD "") else "")))

/-- A `datetime` date. -/
structure PyDate where
  year : Nat
  month : Nat
  day : Nat
deriving DecidableEq, Repr

/-- Gregorian leap year. -/
def isLeap (y : Nat) : Bool := (y % 4 = 0 && y % 100 ≠ 0) || y % 400 = 0

/-- Days in a month. -/
def daysInMonth (y m : Nat) : Nat :=
  if m = 2 then (if isLeap y then 29 else 28)
  else if m = 4 ∨ m = 6 ∨ m = 9 ∨ m = 11 then 30
  else 31

/-- `date + timedelta(days=1)`. -/
def succDate (d : PyDate) : PyDate :=
  if d.day < daysInMonth d.year d.month then ⟨d.year, d.month, d.day + 1⟩
  else if d.month < 12 then ⟨d.year, d.month + 1, 1⟩
  else ⟨d.year + 1, 1, 1⟩

/-- Digit character of a value below 10. -/
def digitChar (n : Nat) : Char := Char.ofNat (48 + n)

/-- Decimal rendering of a natural number (fuel-based). -/
def natToStrAux : Nat → Nat → List Char → List Char
  | 0, _, acc => acc
  | fuel + 1, n, acc =>
    if n < 10 then digitChar n :: acc
    else natToStrAux fuel (n / 10) (digitChar (n % 10) :: acc)

/-- Decimal rendering of a natural number. -/
def natToStr (n : Nat) : String := String.mk (natToStrAux (n + 1) n [])

/-- Two-digit zero-padded rendering (`%m`, `%d`). -/
def pad2 (n : Nat) : String :=
  if n < 10 then String.mk ['0', digitChar n] else natToStr n

/-- `strftime("%Y-%m-%d")` (glibc `%Y` prints the year unpadded; all
reference dates parsed by `%Y` have four digits, so this coincides
with the YYYY-MM-DD shape for them). -/
def fmtYmd (d : PyDate) : String :=
  natToStr d.year ++ "-" ++ pad2 d.month ++ "-" ++ pad2 d.day

/-- Numeric value of a digit list. -/
def digitsToNat (l : List Char) : Nat :=
  l.foldl (fun a c => a * 10 + (c.toNat - 48)) 0

/-- `datetime.strptime(s, "%Y-%m-%d")`, as `Option` instead of
`ValueError`: CPython's `%Y` requires exactly four digits, `%m` and
`%d` take one or two digits, the whole string must be consumed, and
the triple must be a real calendar date with year at least 1. -/
def parseRefDate (s : String) : Option PyDate :=
  match splitOnC '-' s.data [] with
  | [ys, ms, ds] =>
    if ys.length = 4 ∧ ys.all pyIsDigit ∧
        1 ≤ ms.length ∧ ms.length ≤ 2 ∧ ms.all pyIsDigit ∧
        1 ≤ ds.length ∧ ds.length ≤ 2 ∧ ds.all pyIsDigit then
      let y := digitsToNat ys
      let m := digitsToNat ms
      let d := digitsToNat ds
      if 1 ≤ y ∧ 1 ≤ m ∧ m ≤ 12 ∧ 1 ≤ d ∧ d ≤ daysInMonth y m then
        some ⟨y, m, d⟩
      else none
    else none
  | _ => none

/-- `strftime("%B")`: capitalised full month name. -/
def monthNameB (m : Nat) : String :=
  (["January", "February", "March", "April", "May", "June", "July",
    "August", "September", "October", "November", "December"]).getD (m - 1) ""

/-- The reference date: parse `wa_date` strictly, fall back to the
current date (`todayD`, a parameter of the embedding) on absence or
parse failure. -/
def refDateOf (todayD : PyDate) (waDate : Option String) : PyDate :=
  match waDate with
  | some s => (parseRefDate s).getD todayD
  | none => todayD

/-- Positional joining of the date-pattern groups: one part gets the
implied month appended, two are space-joined, three become the range
form "A to B C", anything else is space-joined. -/
def joinDateParts (parts : List String) (im : String) : String :=
  match parts with
  | [a] => a ++ " " ++ im
  | [a, b] => a ++ " " ++ b
  | [a, b, c] => a ++ " to " ++ b ++ " " ++ c
  | l => joinSpStr l

/-- Joining of the time-pattern groups: two or more parts are joined
"h:mm" with the meridiem appended when there are exactly three, one
part stands alone; then `str.strip()`. -/
def joinTimeParts (parts : List String) : String :=
  if 2 ≤ parts.length then
    pyStripS (joinColon (parts.take 2) ++
      (if parts.length = 3 then " " ++ parts.getD 2 "" else ""))
  else pyStripS (parts.headD "")

/-- The pattern-based date extraction: first date pattern that matches
anywhere in the lowercased text. -/
def patternDateOf (im : String) (msg : String) : Option String :=
  firstSome date_patterns (fun p =>
    (research p.re msg.data).map
      (fun c => joinDateParts (truthyParts (groupsOf p c)) im))

/-- The pattern-based time extraction: first time pattern that matches
anywhere in the lowercased text. -/
def patternTimeOf (msg : String) : Option String :=
  firstSome time_patterns (fun p =>
    (research p.re msg.data).map
      (fun c => joinTimeParts (truthyParts (groupsOf p c))))

/-- The relative-date override: "today" (substring) forces the
reference date, else "tomorrow" forces reference-plus-one-day, else
the pattern-based result stands. -/
def rideDateOf (wa_dt : PyDate) (msg : String) (rd0 : Option String) :
    Option String :=
  if isSubstrS "today" msg then some (fmtYmd wa_dt)
  else if isSubstrS "tomorrow" msg then some (fmtYmd (succDate wa_dt))
  else rd0

/-- `extract_datetime_info(message, wa_date)`, with the wall-clock
fallback date passed explicitly as `todayD`. -/
def extract_datetime_info (todayD : PyDate) (message : String)
    (waDate : Option String) : Option String × Option String :=
  let msg := lowerStr message
  let wa_dt := refDateOf todayD waDate
  let rt :=
    match patternTimeOf msg with
    | some tstr => some tstr
    | none => fallback_time_extraction msg
  (rideDateOf wa_dt msg (patternDateOf (monthNameB wa_dt.month) msg), rt)

/-- The ordered offering-phrase list of `classify_ride_type`. -/
def offer_keywords : List String :=
  ["offering", "available", "can give", "have space", "driving to",
   "ride from"]

/-- The ordered seeking-phrase list of `classify_ride_type`. -/
def seek_keywords : List String :=
  ["anyone going", "looking for", "need a ride", "anyone driving",
   "want to join", "ride to"]

/-- Does any phrase of the list occur (substring) in the text? -/
def hasKw (kws : List String) (m : String) : Bool :=
  kws.any (fun p => isSubL p.data m.data)

/-- `classify_ride_type(msg)`: offering phrases are tested before
seeking phrases; no match gives "unknown". -/
def classify_ride_type (msg : String) : String :=
  let m := lowerStr msg
  if hasKw offer_keywords m then "offering"
  else if hasKw seek_keywords m then "seeking"
  else "unknown"

/-- The enriched record a message ends up with after the three
pipeline stages (`classify_messages`, `extract_datetime_for_rides_only`,
`classify_ride_type_for_rides`). -/
structure Record where
  category : String
  origin : Option String
  destination : Option String
  ride_date : Option String
  ride_time : Option String
  ride_type : String
deriving DecidableEq, Repr

/-- The whole pipeline for one message: classification, then date/time
extraction and intent classification for "ride" messages only
(non-rides get `None`/`""` as the scripts do). -/
def processMessage (pm : List (String × String)) (todayD : PyDate)
    (msg : String) (waDate : Option String) : Record :=
  let c := classifyMessage pm msg
  let dt :=
    if c.category = "ride" then extract_datetime_info todayD msg waDate
    else (none, none)
  let ty := if c.category = "ride" then classify_ride_type msg else ""
  { category := c.category, origin := c.origin, destination := c.destination,
    ride_date := dt.1, ride_time := dt.2, ride_type := ty }

/-! ## Inversion lemmas for the extractor -/

/-- `pyOr` returns either its first argument's value or, when that is
`none`, its second's. -/
theorem pyOr_eq_some {α : Type _} (a b : Option α) (c : α)
    (h : pyOr a b = some c) : a = some c ∨ (a = none ∧ b = some c) := by
  cases a with
  | none => exact Or.inr ⟨rfl, h⟩
  | some x => exact Or.inl h

/-- A value produced by `firstSome` comes from some list element. -/
theorem firstSome_eq_some {α β : Type _} (l : List α) (f : α → Option β) (b : β)
    (h : firstSome l f = some b) : ∃ a, a ∈ l ∧ f a = some b := by
  induction l with
  | nil => cases h
  | cons x t ih =>
    unfold firstSome at h
    rcases pyOr_eq_some _ _ _ h with hx | ⟨-, ht⟩
    · exact ⟨x, List.mem_cons_self x t, hx⟩
    · obtain ⟨a, ha, hfa⟩ := ih ht
      exact ⟨a, List.mem_cons_of_mem _ ha, hfa⟩

/-- A canonical name returned by `firstMatch` is a value of the
gazetteer map. -/
theorem firstMatch_mem (pm : List (String × String)) (c v : String)
    (h : firstMatch pm c = some v) : ∃ kv ∈ pm, kv.2 = v := by
  obtain ⟨kv, hmem, hkv⟩ := firstSome_eq_some _ _ _ h
  refine ⟨kv, hmem, ?_⟩
  by_cases hs : searchWB kv.1 c = true
  · rw [if_pos hs] at hkv
    exact Option.some.inj hkv
  · rw [if_neg hs] at hkv
    cases hkv

/-- A pair accepted by `pairCheck` has two nonempty, distinct
canonical names (the guard `src_match and dst_match and
src_match != dst_match`). -/
theorem pairCheck_eq_some (pm : List (String × String)) {s t o d : String}
    (h : pairCheck pm s t = some (o, d)) : o ≠ "" ∧ d ≠ "" ∧ o ≠ d := by
  unfold pairCheck at h
  split at h
  next => 
    split at h
    next hc =>
      simp only [Option.some.injEq, Prod.mk.injEq] at h
      obtain ⟨rfl, rfl⟩ := h
      exact hc
    next => cases h
  next => cases h

/-- A pair returned by the nested candidate loops satisfies the
`pairCheck` guard. -/
theorem tryPairs_eq_some (pm : List (String × String)) (ss ds : List String)
    {o d : String} (h : tryPairs pm ss ds = some (o, d)) :
    o ≠ "" ∧ d ≠ "" ∧ o ≠ d := by
  obtain ⟨src, -, h1⟩ := firstSome_eq_some _ _ _ h
  obtain ⟨dst, -, h2⟩ := firstSome_eq_some _ _ _ h1
  exact pairCheck_eq_some pm h2

/-- A pair returned by `bareCheck` has the synthetic home base as
origin and a nonempty gazetteer canonical as destination. -/
theorem bareCheck_eq_some (pm : List (String × String)) {t o d : String}
    (h : bareCheck pm t = some (o, d)) :
    o = "state college*" ∧ d ≠ "" ∧ ∃ kv ∈ pm, kv.2 = d := by
  unfold bareCheck at h
  split at h
  next d' heq =>
    split at h
    next hd =>
      simp only [Option.some.injEq, Prod.mk.injEq] at h
      obtain ⟨rfl, rfl⟩ := h
      exact ⟨rfl, hd, firstMatch_mem pm t d' heq⟩
    next => cases h
  next => cases h

/-- A pair returned by the bare-"to" block satisfies the `bareCheck`
properties. -/
theorem bareToAt_eq_some (pm : List (String × String)) (ws : List String)
    (i : Nat) {o d : String} (h : bareToAt pm ws i = some (o, d)) :
    o = "state college*" ∧ d ≠ "" ∧ ∃ kv ∈ pm, kv.2 = d := by
  unfold bareToAt at h
  split at h
  · obtain ⟨dst, -, h2⟩ := firstSome_eq_some _ _ _ h
    exact bareCheck_eq_some pm h2
  · cases h

/-- Any pair returned by one scan step is nonempty on both sides, and
is either distinct (candidate-loop return) or a bare-"to" return whose
origin is the synthetic home base and whose destination is a gazetteer
canonical. -/
theorem stepAt_eq_some (pm : List (String × String)) (ws : List String)
    (i : Nat) {o d : String} (h : stepAt pm ws i = some (o, d)) :
    (o ≠ "" ∧ d ≠ "") ∧
      (o ≠ d ∨ (o = "state college*" ∧ ∃ kv ∈ pm, kv.2 = d)) := by
  unfold stepAt at h
  split at h
  · rcases pyOr_eq_some _ _ _ h with h1 | ⟨-, h2⟩
    · obtain ⟨ha, hb, hc⟩ := tryPairs_eq_some _ _ _ h1
      exact ⟨⟨ha, hb⟩, Or.inl hc⟩
    · obtain ⟨ho, hd, hm⟩ := bareToAt_eq_some _ _ _ h2
      exact ⟨⟨by rw [ho]; decide, hd⟩, Or.inr ⟨ho, hm⟩⟩
  · split at h
    · rcases pyOr_eq_some _ _ _ h with h1 | ⟨-, h2⟩
      · obtain ⟨ha, hb, hc⟩ := tryPairs_eq_some _ _ _ h1
        exact ⟨⟨ha, hb⟩, Or.inl hc⟩
      · obtain ⟨ho, hd, hm⟩ := bareToAt_eq_some _ _ _ h2
        exact ⟨⟨by rw [ho]; decide, hd⟩, Or.inr ⟨ho, hm⟩⟩
    · split at h
      · rcases pyOr_eq_some _ _ _ h with h1 | ⟨-, h2⟩
        · obtain ⟨ha, hb, hc⟩ := tryPairs_eq_some _ _ _ h1
          exact ⟨⟨ha, hb⟩, Or.inl hc⟩
        · obtain ⟨ho, hd, hm⟩ := bareToAt_eq_some _ _ _ h2
          exact ⟨⟨by rw [ho]; decide, hd⟩, Or.inr ⟨ho, hm⟩⟩
      · cases h

/-- A non-`(None, None)` result of `extract_first_pair` satisfies the
step properties. -/
theorem extract_pair_eq_some (text : String) (pm : List (String × String))
    {o d : String} (h : extract_first_pair text pm = (some o, some d)) :
    (o ≠ "" ∧ d ≠ "") ∧
      (o ≠ d ∨ (o = "state college*" ∧ ∃ kv ∈ pm, kv.2 = d)) := by
  unfold extract_first_pair at h
  rcases heq : firstSome (List.range ((msgWords text).length - 2))
      (stepAt pm (msgWords text)) with _ | ⟨o', d'⟩ <;> rw [heq] at h
  · simp only [pairToOpt, Prod.mk.injEq] at h
    cases h.1
  · simp only [pairToOpt, Prod.mk.injEq, Option.some.injEq] at h
    obtain ⟨rfl, rfl⟩ := h
    obtain ⟨i, -, hstep⟩ := firstSome_eq_some _ _ _ heq
    exact stepAt_eq_some pm _ i hstep

/-- `extract_first_pair` returns either two `some`s or two `none`s. -/
theorem extract_pair_shape (text : String) (pm : List (String × String)) :
    (∃ o d, extract_first_pair text pm = (some o, some d)) ∨
      extract_first_pair text pm = (none, none) := by
  unfold extract_first_pair
  rcases heq : firstSome (List.range ((msgWords text).length - 2))
      (stepAt pm (msgWords text)) with _ | ⟨o', d'⟩
  · exact Or.inr rfl
  · exact Or.inl ⟨o', d', rfl⟩

/-! ## Tokens of a normalised text are purely alphanumeric -/

/-- Every character of every token produced by whitespace splitting a
list of kept (alphanumeric-or-space) characters is alphanumeric,
provided the accumulator holds only alphanumeric characters. -/
theorem splitWsAux_alnum (l : List Char) :
    ∀ acc : List Char, (∀ c ∈ l, keepChar c = true) →
      (∀ c ∈ acc, pyIsAlnum c = true) →
      ∀ w ∈ splitWsAux l acc, ∀ c ∈ w, pyIsAlnum c = true := by
  induction l with
  | nil =>
    intro acc hl hacc w hw c hc
    unfold splitWsAux at hw
    by_cases he : acc = ([] : List Char)
    · rw [if_pos he] at hw
      cases hw
    · rw [if_neg he] at hw
      rw [List.mem_singleton] at hw
      subst hw
      exact hacc c (List.mem_reverse.mp hc)
  | cons a t ih =>
    intro acc hl hacc w hw c hc
    unfold splitWsAux at hw
    by_cases hs : pyIsSpace a = true
    · rw [if_pos hs] at hw
      by_cases he : acc = ([] : List Char)
      · rw [if_pos he] at hw
        exact ih [] (fun x hx => hl x (List.mem_cons_of_mem _ hx))
          (by intro x hx; cases hx) w hw c hc
      · rw [if_neg he] at hw
        rcases List.mem_cons.mp hw with rfl | hw2
        · exact hacc c (List.mem_reverse.mp hc)
        · exact ih [] (fun x hx => hl x (List.mem_cons_of_mem _ hx))
            (by intro x hx; cases hx) w hw2 c hc
    · rw [if_neg hs] at hw
      refine ih (a :: acc) (fun x hx => hl x (List.mem_cons_of_mem _ hx))
        ?_ w hw c hc
      intro x hx
      rcases List.mem_cons.mp hx with rfl | hx2
      · have hk := hl x (List.mem_cons_self x t)
        unfold keepChar at hk
        rw [Bool.or_eq_true] at hk
        rcases hk with h1 | h1
        · exact h1
        · exact absurd h1 hs
      · exact hacc x hx2

/-- Every character of every token of `msgWords` is alphanumeric:
normalisation removes everything that is neither alphanumeric nor
whitespace, and splitting removes the whitespace. -/
theorem msgWords_alnum (text : String) (w : String) (hw : w ∈ msgWords text) :
    ∀ c ∈ w.data, pyIsAlnum c = true := by
  unfold msgWords pySplitStr at hw
  obtain ⟨w', hw', rfl⟩ := List.mem_map.mp hw
  intro c hc
  refine splitWsAux_alnum (normalize_text text).data [] ?_
    (by intro x hx; cases hx) w' hw' c hc
  intro x hx
  unfold normalize_text at hx
  exact (List.mem_filter.mp hx).2

/-! ## The found-places set has no duplicates -/

/-- `addUnique` preserves `Nodup`. -/
theorem addUnique_nodup (l : List String) (x : String) (h : l.Nodup) :
    (addUnique l x).Nodup := by
  unfold addUnique
  by_cases hx : x ∈ l
  · rwa [if_pos hx]
  · rw [if_neg hx]
    refine List.Nodup.append h (List.nodup_singleton x) ?_
    intro a ha hax
    rw [List.mem_singleton] at hax
    subst hax
    exact hx ha

/-- The fold building `count_unique_places` preserves `Nodup`. -/
theorem foldl_addUnique_nodup (pm : List (String × String)) (text : String) :
    ∀ acc : List String, acc.Nodup →
      (pm.foldl
        (fun acc kv => if searchWB kv.1 text then addUnique acc kv.2 else acc)
        acc).Nodup := by
  induction pm with
  | nil => intro acc h; exact h
  | cons kv t ih =>
    intro acc h
    simp only [List.foldl_cons]
    by_cases hs : searchWB kv.1 text = true
    · rw [if_pos hs]
      exact ih _ (addUnique_nodup _ _ h)
    · rw [if_neg hs]
      exact ih _ h

/-- `count_unique_places` models a set: no duplicates. -/
theorem count_unique_places_nodup (text : String)
    (pm : List (String × String)) : (count_unique_places text pm).Nodup :=
  foldl_addUnique_nodup pm text [] List.nodup_nil

/-- The found-places set after the category decision still has no
duplicates. -/
theorem foundFinal_nodup (pm : List (String × String)) (msg : String) :
    (foundFinal pm msg).Nodup := by
  simp only [foundFinal]
  split
  · exact addUnique_nodup _ _ (count_unique_places_nodup _ _)
  · exact count_unique_places_nodup _ _

/-! ## Claim theorems -/

/-- C6 (counterexample): with a gazetteer whose canonical value is the
synthetic home base `"state college*"`, the message "to to sc2" makes
the bare-"to" block return origin = destination = "state college*",
so extract_pair CAN return a pair whose two sides are the same
canonical place. -/
theorem C6_self_pair_counterexample :
    extract_first_pair "to to sc2" [("sc2", "state college*")] =
      (some "state college*", some "state college*") ∧
    (extract_first_pair "to to sc2" [("sc2", "state college*")]).1 =
      (extract_first_pair "to to sc2" [("sc2", "state college*")]).2 := by
  decide

/-- C6 (amended): for every text and every gazetteer none of whose
canonical values is the synthetic home base `"state college*"`,
`extract_first_pair` never returns a pair with origin = destination:
the candidate loops guard `src_match != dst_match`, and the bare-"to"
block pairs the home base with a gazetteer canonical, which by
hypothesis differs from it. -/
theorem C6_no_self_pair_amended (pm : List (String × String))
    (hpm : ∀ kv ∈ pm, kv.2 ≠ "state college*") (text o d : String)
    (hx : extract_first_pair text pm = (some o, some d)) : o ≠ d := by
  obtain ⟨-, hcase⟩ := extract_pair_eq_some text pm hx
  rcases hcase with h | ⟨ho, kv, hmem, hval⟩
  · exact h
  · rw [ho, ← hval]
    exact fun he => hpm kv hmem he.symm

/-- Witness for C6 (amended): the scenario gazetteer has no canonical
equal to "state college*", and on "driving from sc to pittsburgh" the
extractor returns the distinct pair (state college, pittsburgh). -/
theorem C6_no_self_pair_amended_witness :
    (∀ kv ∈ gazetteerC, kv.2 ≠ "state college*") ∧
      ("state college" : String) ≠ "pittsburgh" :=
  ⟨by decide,
    C6_no_self_pair_amended gazetteerC (by decide)
      "driving from sc to pittsburgh" "state college" "pittsburgh"
      (by decide)⟩

/-- C7: if `extract_first_pair` returns a pair of two distinct places,
the category classifier returns "ride" for that text (the returned
places are nonempty strings, so the Python truthiness test
`if origin and destination` succeeds). -/
theorem C7_pair_implies_ride (pm : List (String × String)) (msg o d : String)
    (h : extract_first_pair msg pm = (some o, some d)) (hne : o ≠ d) :
    (classifyMessage pm msg).category = "ride" := by
  obtain ⟨⟨ho, hd⟩, -⟩ := extract_pair_eq_some msg pm h
  show categoryOf pm msg = "ride"
  simp only [categoryOf, h]
  rw [if_pos ⟨bne_iff_ne.mpr ho, bne_iff_ne.mpr hd⟩]

/-- Witness for C7: the from…to scenario message is classified
"ride". -/
theorem C7_pair_implies_ride_witness :
    (classifyMessage gazetteerC "driving from sc to pittsburgh").category =
      "ride" :=
  C7_pair_implies_ride gazetteerC "driving from sc to pittsburgh"
    "state college" "pittsburgh" (by decide) (by decide)

/-- C10: in every classification result, origin is `None` exactly when
destination is `None`: the extractor returns both or neither, and the
set-based fallback overwrites both or neither. -/
theorem C10_origin_iff_destination (pm : List (String × String))
    (msg : String) :
    ((classifyMessage pm msg).origin = none ↔
      (classifyMessage pm msg).destination = none) := by
  show ((assignPair (extract_first_pair msg pm) (categoryOf pm msg)
      (foundFinal pm msg)).1 = none ↔
    (assignPair (extract_first_pair msg pm) (categoryOf pm msg)
      (foundFinal pm msg)).2 = none)
  rcases extract_pair_shape msg pm with ⟨o, d, he⟩ | he <;> rw [he] <;>
      unfold assignPair <;> split_ifs with h1 h2 <;>
    simp only [List.get?_eq_none, Prod.fst, Prod.snd] <;>
    omega

/-- C5: for a message classified "ride" whose pair extraction returned
no pair, the fallback fills origin and destination with the first two
members of the (possibly home-base-augmented) found-places set when it
has at least two members — and they are distinct since the set has no
duplicates — and leaves both unset when it has fewer than two. -/
theorem C5_fallback_assignment (pm : List (String × String)) (msg : String)
    (h1 : extract_first_pair msg pm = (none, none))
    (h2 : (classifyMessage pm msg).category = "ride") :
    (2 ≤ (foundFinal pm msg).length →
      (classifyMessage pm msg).origin = (foundFinal pm msg).get? 0 ∧
      (classifyMessage pm msg).destination = (foundFinal pm msg).get? 1 ∧
      (classifyMessage pm msg).origin ≠ (classifyMessage pm msg).destination) ∧
    ((foundFinal pm msg).length < 2 →
      (classifyMessage pm msg).origin = none ∧
      (classifyMessage pm msg).destination = none) := by
  have hcat : categoryOf pm msg = "ride" := h2
  have hO : (classifyMessage pm msg).origin =
      (if 2 ≤ (foundFinal pm msg).length
        then ((foundFinal pm msg).get? 0, (foundFinal pm msg).get? 1)
        else ((none : Option String), (none : Option String))).1 := by
    show (assignPair (extract_first_pair msg pm) (categoryOf pm msg)
        (foundFinal pm msg)).1 = _
    rw [h1]
    unfold assignPair
    rw [if_pos ⟨rfl, hcat⟩]
  have hD : (classifyMessage pm msg).destination =
      (if 2 ≤ (foundFinal pm msg).length
        then ((foundFinal pm msg).get? 0, (foundFinal pm msg).get? 1)
        else ((none : Option String), (none : Option String))).2 := by
    show (assignPair (extract_first_pair msg pm) (categoryOf pm msg)
        (foundFinal pm msg)).2 = _
    rw [h1]
    unfold assignPair
    rw [if_pos ⟨rfl, hcat⟩]
  constructor
  · intro hlen
    rw [hO, hD, if_pos hlen]
    refine ⟨rfl, rfl, ?_⟩
    have hnd := foundFinal_nodup pm msg
    rcases hf : foundFinal pm msg with _ | ⟨a, rest⟩
    · rw [hf] at hlen
      simp at hlen
    · rcases rest with _ | ⟨b, t⟩
      · rw [hf] at hlen
        simp at hlen
      · rw [hf] at hnd
        have hab : a ≠ b := by
          intro he
          exact (List.nodup_cons.mp hnd).1 (he ▸ List.mem_cons_self b t)
        simp [hab]
  · intro hlen
    rw [hO, hD, if_neg (by omega : ¬ 2 ≤ (foundFinal pm msg).length)]
    exact ⟨rfl, rfl⟩

/-- Witness for C5: the bare-"to" scenario message goes through the
fallback and receives the first two members of its found-places set. -/
theorem C5_fallback_assignment_witness :
    (classifyMessage gazetteerC "anyone going to pgh this weekend?").origin =
      (foundFinal gazetteerC "anyone going to pgh this weekend?").get? 0 ∧
    (classifyMessage gazetteerC
        "anyone going to pgh this weekend?").destination =
      (foundFinal gazetteerC "anyone going to pgh this weekend?").get? 1 ∧
    (classifyMessage gazetteerC "anyone going to pgh this weekend?").origin ≠
      (classifyMessage gazetteerC
        "anyone going to pgh this weekend?").destination :=
  (C5_fallback_assignment gazetteerC "anyone going to pgh this weekend?"
    (by decide) (by decide)).1 (by decide)

/-- C3 (counterexample): "sc - pittsburgh" does NOT resolve to
(state college, pittsburgh): the hyphen is deleted by normalisation
before tokenisation, so the connector branch never sees it and the
extractor returns no pair. -/
theorem C3_connector_counterexample :
    extract_first_pair "sc - pittsburgh" gazetteerC ≠
      (some "state college", some "pittsburgh") ∧
    extract_first_pair "sc - pittsburgh" gazetteerC = (none, none) := by
  decide

/-- C3 (amended): no token of a normalised text can be "-" or "→"
(normalisation keeps only alphanumerics and whitespace), so the
connector cue can only fire on "to"; a "to" connector with a token
before the origin place does fire, e.g. "leaving sc to pittsburgh"
resolves to (state college, pittsburgh). -/
theorem C3_connector_amended :
    (∀ text w : String, w ∈ msgWords text → w ≠ "-" ∧ w ≠ "→") ∧
    extract_first_pair "leaving sc to pittsburgh" gazetteerC =
      (some "state college", some "pittsburgh") := by
  constructor
  · intro text w hw
    have halnum := msgWords_alnum text w hw
    constructor
    · intro he
      have hm : ('-' : Char) ∈ w.data :=
        he ▸ (by decide : ('-' : Char) ∈ ("-" : String).data)
      exact absurd (halnum '-' hm) (by decide)
    · intro he
      have hm : ('→' : Char) ∈ w.data :=
        he ▸ (by decide : ('→' : Char) ∈ ("→" : String).data)
      exact absurd (halnum '→' hm) (by decide)
  · decide

/-- Witness for C3 (amended): applied to the concrete text "sc - pgh"
and its first token "sc". -/
theorem C3_connector_amended_witness :
    ("sc" : String) ≠ "-" ∧ ("sc" : String) ≠ "→" :=
  C3_connector_amended.1 "sc - pgh" "sc" (by decide)

/-- C4 (counterexample): a text containing both "today" and
"tomorrow" takes the `elif`'s "today" branch, so the returned
ride_date is the reference date itself, not reference-plus-one-day. -/
theorem C4_today_precedence_counterexample :
    (extract_datetime_info ⟨2024, 3, 1⟩ "today or tomorrow"
        (some "2024-03-01")).1 ≠ some "2024-03-02" ∧
    (extract_datetime_info ⟨2024, 3, 1⟩ "today or tomorrow"
        (some "2024-03-01")).1 = some "2024-03-01" := by
  decide

/-- C4 (amended): for every text containing "tomorrow" but NOT
containing "today" (both as substrings of the lowercased text), and
every reference date accepted by the strict `%Y-%m-%d` parse (and
below the `datetime` upper bound 9999-12-31, past which the source
raises OverflowError instead), the returned ride_date is the
reference date plus one day, regardless of any other date pattern
that matched. -/
theorem C4_tomorrow_amended (todayD : PyDate) (msg s : String) (d : PyDate)
    (hparse : parseRefDate s = some d)
    (htom : isSubstrS "tomorrow" (lowerStr msg) = true)
    (hnotod : isSubstrS "today" (lowerStr msg) = false)
    (hmax : d ≠ ⟨9999, 12, 31⟩) :
    (extract_datetime_info todayD msg (some s)).1 =
      some (fmtYmd (succDate d)) := by
  simp only [extract_datetime_info, refDateOf, hparse, Option.getD_some,
    rideDateOf, hnotod, htom]
  simp

/-- Witness for C4 (amended): "see you Tomorrow evening" with
reference date 2024-03-01 yields 2024-03-02. -/
theorem C4_tomorrow_amended_witness :
    parseRefDate "2024-03-01" = some ⟨2024, 3, 1⟩ ∧
    (extract_datetime_info ⟨2020, 1, 1⟩ "see you Tomorrow evening"
        (some "2024-03-01")).1 = some (fmtYmd (succDate ⟨2024, 3, 1⟩)) :=
  ⟨by decide,
    C4_tomorrow_amended ⟨2020, 1, 1⟩ "see you Tomorrow evening" "2024-03-01"
      ⟨2024, 3, 1⟩ (by decide) (by decide) (by decide) (by decide)⟩

/-- C9: the intent classifier tests the offering list before the
seeking list, so a text matching phrases from both lists is classified
"offering", and a text matching neither list is classified
"unknown". -/
theorem C9_intent_priority (msg : String) :
    (hasKw offer_keywords (lowerStr msg) = true ∧
        hasKw seek_keywords (lowerStr msg) = true →
      classify_ride_type msg = "offering") ∧
    (hasKw offer_keywords (lowerStr msg) = false ∧
        hasKw seek_keywords (lowerStr msg) = false →
      classify_ride_type msg = "unknown") := by
  unfold classify_ride_type
  constructor
  · rintro ⟨ho, -⟩
    rw [if_pos ho]
  · rintro ⟨ho, hs⟩
    rw [if_neg (by simp [ho]), if_neg (by simp [hs])]

/-- Witness for C9: a message containing both "offering" (offer list)
and "anyone going" (seek list) is classified "offering". -/
theorem C9_intent_priority_witness :
    classify_ride_type "offering a ride anyone going to sc" = "offering" :=
  (C9_intent_priority "offering a ride anyone going to sc").1 (by decide)

/-- C8 (counterexample): an empty gazetteer line is NOT skipped: it
contributes the degenerate entry mapping "" to "". -/
theorem C8_empty_line_counterexample :
    load_places [""] = [("", "")] ∧
    load_places [""] ≠ ([] : List (String × String)) := by
  decide

/-- C8 (amended): loading never halts on malformed lines (the loader
is total), but an empty line is not skipped: it registers the entry
("", ""); well-formed lines register every trimmed lowercased token
mapping to the line's first token. -/
theorem C8_loader_amended :
    load_places ["", "State College = SC "] =
      [("", ""), ("state college", "state college"),
        ("sc", "state college")] := by
  decide

/-- C1 (counterexample): in the from…to scenario the ride_type is
"unknown", not "offering" — the message says "driving from", and no
phrase of the offering list ("offering", "available", "can give",
"have space", "driving to", "ride from") occurs in it. -/
theorem C1_ride_type_counterexample :
    (processMessage gazetteerC ⟨2025, 1, 1⟩
        "driving from SC to Pittsburgh tomorrow at 6:30pm"
        (some "2024-03-01")).ride_type ≠ "offering" ∧
    (processMessage gazetteerC ⟨2025, 1, 1⟩
        "driving from SC to Pittsburgh tomorrow at 6:30pm"
        (some "2024-03-01")).ride_type = "unknown" := by
  decide

/-- C1 (amended): the from…to scenario produces category "ride",
origin "state college", destination "pittsburgh", ride_date
"2024-03-02" (tomorrow override on reference 2024-03-01), ride_time
"6:30 pm" — but ride_type "unknown". -/
theorem C1_scenario_amended :
    processMessage gazetteerC ⟨2025, 1, 1⟩
        "driving from SC to Pittsburgh tomorrow at 6:30pm"
        (some "2024-03-01") =
      { category := "ride", origin := some "state college",
        destination := some "pittsburgh", ride_date := some "2024-03-02",
        ride_time := some "6:30 pm", ride_type := "unknown" } := by
  decide

/-- C2: the bare-"to" block never fires on "anyone going to pgh this
weekend?" (or even on the code comment's own example "driving to
pittsburgh"), because it sits after `else: continue` and is reached
only when a cue branch matched at the same index; `extract_first_pair`
therefore returns (None, None), and origin/destination come from the
set-based fallback instead (in the embedding's insertion order:
origin "pittsburgh", destination "state college*" — not the claimed
("state college*", "pittsburgh") from the extractor). -/
theorem C2_bare_to_unreachable :
    extract_first_pair "anyone going to pgh this weekend?" gazetteerC =
      (none, none) ∧
    extract_first_pair "driving to pittsburgh" gazetteerC = (none, none) ∧
    processMessage gazetteerC ⟨2024, 3, 1⟩ "anyone going to pgh this weekend?"
        none =
      { category := "ride", origin := some "pittsburgh",
        destination := some "state college*", ride_date := none,
        ride_time := none, ride_type := "seeking" } := by
  decide
